import Mathlib

/-!
Verification of the md2epub EPUB library against its specification.

This file shallowly embeds the data model and the operations of the
repository (src/md2epub and src/md2epub/epublib) as executable Lean
definitions, and proves or refutes the frozen claims about them.

Conventions:
* Python dicts that preserve insertion order are modelled as association
  lists with first-match lookup (`dGetF`) and replace-or-append update
  (`dSet`); the extension table built by a dict comprehension uses
  last-write-wins lookup (`dGetLast`).
* The external `mimetypes.guess_type` function is passed as a parameter
  `g` to `add_item`; the external lxml HTML parser is modelled by letting
  a content document carry its parsed body tree (`bodyRoot`), on which the
  repository's own extraction logic (`get_pages`, `get_headers`) runs.
* Machine integers do not occur; all counters are unbounded in Python.
-/

namespace Md2Epub

/-- Python's whitespace class on the (ASCII) characters occurring in the
inputs: space, tab, newline, carriage return, vertical tab, form feed. -/
def isPySpace (c : Char) : Bool :=
  c == ' ' || c == '\t' || c == '\n' || c == '\r' ||
  c == Char.ofNat 11 || c == Char.ofNat 12

/-- Python `str.strip()` (ASCII whitespace). -/
def pyStrip (s : String) : String :=
  String.mk (((s.data.dropWhile isPySpace).reverse.dropWhile isPySpace).reverse)

/-- Python `str.lower()` (ASCII case folding, character by character). -/
def pyLower (s : String) : String :=
  String.mk (s.data.map Char.toLower)

/-- Python `str.split(sep)` for a single-character separator. -/
def splitChar (sep : Char) (s : String) : List String :=
  go s.data []
where
  go : List Char → List Char → List String
  | [], acc => [String.mk acc.reverse]
  | c :: cs, acc =>
    if c == sep then String.mk acc.reverse :: go cs [] else go cs (c :: acc)

/-- Python `sep.join(parts)` for the path separator. -/
def joinSlash : List String → String
  | [] => ""
  | [x] => x
  | x :: xs => x ++ "/" ++ joinSlash xs

/-- First-match lookup in an association list (Python dict `get` for dicts
built without duplicate keys). -/
def dGetF {ν : Type} (d : List (String × ν)) (k : String) : Option ν :=
  (d.find? (fun p => p.1 == k)).map (fun p => p.2)

/-- Last-match lookup in an association list: Python dict semantics where a
later assignment to the same key overwrites an earlier one. -/
def dGetLast {ν : Type} (d : List (String × ν)) (k : String) : Option ν :=
  (d.reverse.find? (fun p => p.1 == k)).map (fun p => p.2)

/-- Python dict assignment `d[k] = v`: replace in place if the key exists,
else append at the end (insertion order preserved). -/
def dSet {ν : Type} (d : List (String × ν)) (k : String) (v : ν) : List (String × ν) :=
  if (d.find? (fun p => p.1 == k)).isSome then
    d.map (fun p => if p.1 == k then (k, v) else p)
  else
    d ++ [(k, v)]

/-- Index of the last occurrence of a character (Python `str.rfind`,
`none` for -1). -/
def lastIdx? (cs : List Char) (c : Char) : Option Nat :=
  (List.range cs.length).foldl
    (fun acc i => if cs.getD i ' ' == c then some i else acc) none

/-- Model of `posixpath.splitext`, extension part only: the suffix from the last dot,
provided that dot lies after the last slash and the base name is not made of
leading dots only. -/
def extOf (p : String) : String :=
  let cs := p.data
  match lastIdx? cs '.' with
  | none => ""
  | some d =>
    let s := match lastIdx? cs '/' with | some j => j + 1 | none => 0
    if s ≤ d ∧ ((cs.drop s).take (d - s)).any (fun c => c ≠ '.') then
      String.mk (cs.drop d)
    else ""

/-- Model of `posixpath.dirname`: everything up to the last slash, with trailing
slashes stripped unless the result is all slashes. -/
def dirname (p : String) : String :=
  let cs := p.data
  let i := match lastIdx? cs '/' with | some j => j + 1 | none => 0
  let head := cs.take i
  if head ≠ [] ∧ head.any (fun c => c ≠ '/') then
    String.mk (head.reverse.dropWhile (fun c => c == '/')).reverse
  else String.mk head

/-- Path components after normalisation: empty and `.` components dropped,
`..` pops the previous component (both paths are anchored at the same
working directory, so `posixpath.relpath`'s `abspath` step reduces to
this for archive-internal paths). -/
def normParts (l : List String) : List String :=
  l.foldl (fun acc c =>
    if c = "" ∨ c = "." then acc
    else if c = ".." then acc.dropLast
    else acc ++ [c]) []

/-- Length of the longest common component sequence. -/
def commonLen : List String → List String → Nat
  | a :: as, b :: bs => if a = b then commonLen as bs + 1 else 0
  | _, _ => 0

/-- Model of `posixpath.relpath path start` (pure path-string relativisation). -/
def relpath (path start : String) : String :=
  let st := if start = "" then "." else start
  let sl := normParts (splitChar '/' st)
  let pl := normParts (splitChar '/' path)
  let i := commonLen sl pl
  let rel := List.replicate (sl.length - i) ".." ++ pl.drop i
  if rel = [] then "." else joinSlash rel

-- # consts.py

/-- The `ItemType` enumeration from `epublib/consts.py`. -/
inductive ItemType where
  | UNKNOWN
  | IMAGE
  | STYLE
  | SCRIPT
  | NAVIGATION
  | VECTOR
  | FONT
  | VIDEO
  | Audio
  | DOCUMENT
  | COVER
  | SMIL
deriving DecidableEq, Repr

/-- A value of the `_EXTENSIONS` dict: either a real tuple of extension
strings, or — where the source wrote `('.css')` without a trailing comma —
a plain string. -/
inductive ExtCell where
  | tup (l : List String)
  | strg (s : String)

/-- Iterating an `ExtCell` the way Python's `for ext in exts` does: a tuple
yields its elements, a plain string yields its characters one by one. -/
def extCellIter : ExtCell → List String
  | .tup l => l
  | .strg s => s.data.map (fun c => String.mk [c])

/-- Table `_EXTENSIONS` from `epublib/consts.py`, verbatim: single-extension rows
are parenthesised strings, not one-element tuples. -/
def EXT_TABLE : List (ItemType × ExtCell) :=
  [ (.IMAGE, .tup [".jpg", ".jpeg", ".gif", ".tiff", ".tif", ".png"]),
    (.STYLE, .strg ".css"),
    (.VECTOR, .strg ".svg"),
    (.FONT, .tup [".otf", ".woff", ".ttf"]),
    (.SCRIPT, .strg ".js"),
    (.NAVIGATION, .strg ".ncx"),
    (.VIDEO, .tup [".mov", ".mp4", ".avi"]),
    (.Audio, .tup [".mp3", ".ogg"]),
    (.COVER, .tup [".jpg", ".jpeg", ".png"]),
    (.SMIL, .strg ".smil") ]

/-- Dict `EXTENSIONS = {ext: t for t, exts in _EXTENSIONS.items() for ext in exts}`:
the key/value pairs in comprehension order; lookups take the last write. -/
def EXTENSIONS : List (String × ItemType) :=
  EXT_TABLE.foldl
    (fun acc p => acc ++ (extCellIter p.2).map (fun e => (e, p.1))) []

/-- Table `NAMESPACES` from `epublib/consts.py`. -/
def NAMESPACES : List (String × String) :=
  [ ("XML", "http://www.w3.org/XML/1998/namespace"),
    ("EPUB", "http://www.idpf.org/2007/ops"),
    ("DAISY", "http://www.daisy.org/z3986/2005/ncx/"),
    ("OPF", "http://www.idpf.org/2007/opf"),
    ("CONTAINERNS", "urn:oasis:names:tc:opendocument:xmlns:container"),
    ("DC", "http://purl.org/dc/elements/1.1/"),
    ("XHTML", "http://www.w3.org/1999/xhtml") ]

-- # Parsed HTML elements (external lxml trees, consumed by items.py)

/-- A parsed HTML element as produced by the external lxml parser: tag,
attribute map, leading text, tail text, and child elements in order. -/
inductive Elem where
  | mk (tag : String) (attrs : List (String × String)) (text : Option String)
       (tailTxt : Option String) (children : List Elem)
deriving Repr

/-- Tag of an element. -/
def Elem.tag : Elem → String | .mk t _ _ _ _ => t

/-- Attribute map of an element. -/
def Elem.attrs : Elem → List (String × String) | .mk _ a _ _ _ => a

/-- Leading text of an element (lxml `.text`). -/
def Elem.text : Elem → Option String | .mk _ _ t _ _ => t

/-- Tail text of an element (lxml `.tail`). -/
def Elem.tailTxt : Elem → Option String | .mk _ _ _ t _ => t

/-- Child elements in document order. -/
def Elem.children : Elem → List Elem | .mk _ _ _ _ cs => cs

/-- Attribute lookup, lxml `elem.get(name)` / `name in elem.attrib`. -/
def Elem.get (e : Elem) (k : String) : Option String := dGetF e.attrs k

/-- Concatenated text of the whole subtree, lxml `text_content()`: own text,
then for each child its text content followed by its tail. -/
def textContent : Elem → String
  | .mk _ _ t _ cs => t.getD "" ++ go cs
where
  go : List Elem → String
  | [] => ""
  | c :: cs => textContent c ++ c.tailTxt.getD "" ++ go cs

/-- Document-order iteration over a subtree including the element itself,
lxml `elem.iter()`. -/
def elemIter : Elem → List Elem
  | .mk tg a t tl cs => .mk tg a t tl cs :: go cs
where
  go : List Elem → List Elem
  | [] => []
  | c :: cs => elemIter c ++ go cs

-- # items.py

/-- The Python class of an item; `isinstance` checks dispatch on this.
`EpubCoverHtml` and `EpubNav` are subclasses of `EpubHtml`. -/
inductive ItemClass where
  | generic
  | ncx
  | cover
  | html
  | coverHtml
  | nav
  | image
  | smil
deriving DecidableEq, Repr

/-- Whether the class is `EpubHtml` or a subclass of it. -/
def isHtmlCls : ItemClass → Bool
  | .html | .coverHtml | .nav => true
  | _ => false

/-- Whether the class is `EpubImage`. -/
def isImageCls : ItemClass → Bool
  | .image => true
  | _ => false

/-- An item of the book: the union of the fields of `EpubItem` and its
subclasses that the claims touch. `bodyRoot` stands for the lxml tree
obtained by parsing the document's body content (external parser); the
remaining fields mirror the Python attributes with their constructor
defaults. -/
structure Item where
  cls : ItemClass
  uid : String
  file_name : String
  media_type : String
  title : String
  is_linear : Bool
  manifest : Bool
  direction : Option String
  links : List (List (String × String))
  properties : List String
  pages : List (String × String × String)
  bodyRoot : Elem
deriving Repr

/-- A fresh `EpubHtml(...)` with everything defaulted except class. -/
def mkItem (c : ItemClass) : Item :=
  { cls := c, uid := "", file_name := "", media_type := "", title := "",
    is_linear := true, manifest := true, direction := none, links := [],
    properties := [], pages := [], bodyRoot := .mk "html" [] none none [] }

/-- The `type` property: overridden to a constant in `EpubHtml`/`EpubCover`/
`EpubImage`/`EpubSMIL`; the base `EpubItem.type` (also inherited by
`EpubNcx`) looks the lower-cased extension up in `EXTENSIONS`, defaulting
to `UNKNOWN`. -/
def itemType (it : Item) : ItemType :=
  match it.cls with
  | .cover => .COVER
  | .html | .coverHtml | .nav => .DOCUMENT
  | .image => .IMAGE
  | .smil => .SMIL
  | .generic | .ncx => (dGetLast EXTENSIONS (pyLower (extOf it.file_name))).getD .UNKNOWN

/-- Method `EpubHtml.add_link(**kw)`: append the attribute dict to `links`;
a `text/javascript` link additionally ensures `'scripted'` is in
`properties`. -/
def add_link (d : Item) (kw : List (String × String)) : Item :=
  let d1 := { d with links := d.links ++ [kw] }
  if dGetF kw "type" == some "text/javascript" then
    if d1.properties.contains "scripted" then d1
    else { d1 with properties := d1.properties ++ ["scripted"] }
  else d1

-- # items.py: page extraction

/-- Function `get_headers(elem)`: for heading levels 1..6 in order, take the
direct children with that heading tag; if there are some and the first
one's stripped text content is non-empty, return it; otherwise continue. -/
def get_headers (e : Elem) : Option String :=
  (List.range 6).foldl
    (fun acc n =>
      match acc with
      | some _ => acc
      | none =>
        match e.children.filter (fun c => c.tag == "h" ++ toString (n + 1)) with
        | [] => none
        | h :: _ =>
          let t := pyStrip (textContent h)
          if t ≠ "" then some t else none)
    none

/-- Function `get_pages(item)`: walk the parsed body; an element with an
`epub:type` attribute and a non-`None` id yields a
`(file_name, id, label)` triple, with label priority: stripped own text,
`aria-label` attribute, nearest heading text, and finally (also when the
chosen text is the empty string, because of `text or id`) the id. -/
def get_pages (it : Item) : List (String × String × String) :=
  (elemIter it.bodyRoot).foldr
    (fun e acc =>
      if (e.get "epub:type").isSome then
        match e.get "id" with
        | none => acc
        | some idv =>
          let t1 : Option String :=
            match e.text with
            | some tx => if pyStrip tx ≠ "" then some (pyStrip tx) else none
            | none => none
          let t2 := match t1 with | some _ => t1 | none => e.get "aria-label"
          let t3 := match t2 with | some _ => t2 | none => get_headers e
          let label := match t3 with
            | some s => if s = "" then idv else s
            | none => idv
          (it.file_name, idv, label) :: acc
      else acc)
    []

/-- Function `get_pages_for_items(items)`, verbatim from the source:
`[page for item in items for pages in get_pages(item) for page in pages]`.
The innermost `for page in pages` iterates over each *triple*, so the
result is a flat list of strings (filename, id, label interleaved), not a
list of triples. -/
def get_pages_for_items (items : List Item) : List String :=
  items.flatMap (fun it =>
    (get_pages it).flatMap (fun p => [p.1, p.2.1, p.2.2]))

-- # core.py: the book aggregate

/-- First component of a `(heading, children)` TOC pair: a document, a
`Section(title, href)`, a link, or some other titled object. -/
inductive TocHead where
  | doc (it : Item)
  | sec (title href : String)
  | link (href title luid : String)
  | other (title : String)
deriving Repr

/-- A value of the book's TOC list: entries are content documents, links,
raw strings (the pipeline appends `'cover'`), or `(heading, children)`
pairs. -/
inductive TocNode where
  | doc (it : Item)
  | link (href title luid : String)
  | strg (s : String)
  | sect (head : TocHead) (children : List TocNode)
deriving Repr

/-- A spine value: an item object or a bare id string. -/
inductive SpineVal where
  | itm (i : Item)
  | sid (s : String)
deriving Repr

/-- A spine entry: a plain value, or a tuple whose optional second component
is the linearity-override string. -/
inductive SpineEntry where
  | plain (v : SpineVal)
  | tup (v : SpineVal) (snd : Option String)
deriving Repr

/-- An entry of `book.guide`: a dict with optional `item` plus the literal
`href`/`title`/`type` fields (`.get` defaults modelled as `""`). -/
structure GuideEntry where
  gitem : Option Item
  href : String
  gtitle : String
  gtype : String
deriving Repr

/-- The metadata registry: namespace (None or URI/alias string) to element
name to ordered list of `(value, attributes)` pairs. -/
abbrev Metadata : Type :=
  List (Option String × List (String × List (String × Option (List (String × String)))))

/-- Namespace lookup in the metadata registry (keys may be `None`). -/
def mGet (m : Metadata) (k : Option String) :
    Option (List (String × List (String × Option (List (String × String))))) :=
  (m.find? (fun p => p.1 == k)).map (fun p => p.2)

/-- Namespace assignment in the metadata registry. -/
def mSet (m : Metadata) (k : Option String)
    (v : List (String × List (String × Option (List (String × String))))) : Metadata :=
  if (m.find? (fun p => p.1 == k)).isSome then
    m.map (fun p => if p.1 == k then (k, v) else p)
  else
    m ++ [(k, v)]

/-- The `EpubBook` aggregate: the fields the claims touch, as initialised
by `EpubBook.__init__` (before the constructor's `add_metadata` call). -/
structure Book where
  metadata : Metadata
  items : List Item
  spine : List SpineEntry
  guide : List GuideEntry
  pages : List (String × String × String)
  toc : List TocNode
  id_html : Nat
  id_image : Nat
  id_static : Nat
  title : String
  language : String
  direction : Option String

/-- Alias resolution shared by the metadata methods:
`if namespace in NAMESPACES: namespace = NAMESPACES[namespace]`. -/
def resolveNs (ns : Option String) : Option String :=
  match ns with
  | none => none
  | some s => match dGetF NAMESPACES s with
    | some u => some u
    | none => some s

/-- Method `EpubBook.add_metadata`: resolve the namespace alias, create the
inner dict and the entry list if absent, and append `(value, others)`. -/
def add_metadata (b : Book) (ns : Option String) (name : String) (value : String)
    (others : Option (List (String × String))) : Book :=
  let nsr := resolveNs ns
  let inner := (mGet b.metadata nsr).getD []
  let entries := (dGetF inner name).getD []
  { b with metadata := mSet b.metadata nsr (dSet inner name (entries ++ [(value, others)])) }

/-- Method `EpubBook.get_metadata`: resolve the namespace alias, then
`self.metadata[namespace].get(name, [])` — the outer subscript raises
`KeyError` when the namespace has no entry in the registry. -/
def get_metadata (b : Book) (ns : Option String) (name : String) :
    Except String (List (String × Option (List (String × String)))) :=
  match mGet b.metadata (resolveNs ns) with
  | none => .error "KeyError"
  | some inner => .ok ((dGetF inner name).getD [])

/-- The state `EpubBook.__init__` leaves behind: empty collections, zero
counters, and one generator entry registered in the OPF namespace. -/
def initBook : Book :=
  add_metadata
    { metadata := [], items := [], spine := [], guide := [], pages := [],
      toc := [], id_html := 0, id_image := 0, id_static := 0,
      title := "", language := "", direction := none }
    (some "OPF") "generator" ""
    (some [("name", "generator"), ("content", "md2epub.epublib")])

/-- The media type chosen by the block at the top of `EpubBook.add_item`.
The external `mimetypes.guess_type` is the parameter `g`, returning
Python's `(type, encoding)` pair; the source unpacks it as
`has_guessed, media_type` and prefers the second component when both are
set. -/
def guessedMedia (g : String → Option String × Option String) (it : Item) : String :=
  if it.media_type = "" then
    match g (pyLower it.file_name) with
    | (some _, some mt) => mt
    | (some hg, none) => hg
    | (none, _) => "application/octet-stream"
  else it.media_type

/-- The media-type block of `EpubBook.add_item`: only `media_type` changes. -/
def fixMedia (g : String → Option String × Option String) (it : Item) : Item :=
  { it with media_type := guessedMedia g it }

/-- Method `EpubBook.add_item`: infer the media type if empty; if the uid is
empty, assign the per-category counter id (advancing that counter) and —
only inside the content-document arm of that branch — append the item's
derived page markers to the book's page list; finally append the item. -/
def add_item (g : String → Option String × Option String) (b : Book) (item0 : Item) : Book :=
  let item := fixMedia g item0
  if item.uid = "" then
    if isHtmlCls item.cls then
      let it := { item with uid := "chapter_" ++ toString b.id_html }
      { b with id_html := b.id_html + 1, pages := b.pages ++ item.pages,
               items := b.items ++ [it] }
    else if isImageCls item.cls then
      let it := { item with uid := "image_" ++ toString b.id_image }
      { b with id_image := b.id_image + 1, items := b.items ++ [it] }
    else
      let it := { item with uid := "static_" ++ toString b.id_static }
      { b with id_static := b.id_static + 1, items := b.items ++ [it] }
  else
    { b with items := b.items ++ [item] }

/-- Method `EpubBook.get_item_with_id`: first item with the given uid,
`None` if absent. -/
def get_item_with_id (b : Book) (uid : String) : Option Item :=
  b.items.find? (fun it => it.uid == uid)

-- # io.py: the archive writer

/-- Compression mode of a zip entry: `zipfile.ZIP_STORED` or
`zipfile.ZIP_DEFLATED`. -/
inductive Compression where
  | stored
  | deflated
deriving DecidableEq, Repr

/-- One physical entry of the output archive, in write order. -/
structure ZipEntry where
  name : String
  content : String
  comp : Compression
deriving DecidableEq, Repr

/-- Method `ZipFile.writestr` with an explicit compression type: appends a
new physical entry. -/
def writestr (es : List ZipEntry) (name content : String) (comp : Compression) :
    List ZipEntry :=
  es ++ [{ name := name, content := content, comp := comp }]

/-- The writer options after `__init__` merged the defaults with the caller
overrides. `epub2_guide` and `epub3_landmark` are only ever tested with
`is None`, so the model keeps whether they are `None`; `epub3_pages` and
`spine_direction` are tested for truthiness. -/
structure Opts where
  epub2_guide : Option Bool
  epub3_landmark : Option Bool
  epub3_pages : Bool
  landmark_title : String
  pages_title : String
  spine_direction : Bool
  package_direction : Bool
deriving Repr

/-- The default option dict of `EpubWriter.__init__`. -/
def defaultOpts : Opts :=
  { epub2_guide := some true, epub3_landmark := some true, epub3_pages := true,
    landmark_title := "Guide", pages_title := "Pages",
    spine_direction := true, package_direction := false }

/-- The writer state built by `EpubWriter.__init__`. -/
structure Writer where
  book : Book
  path : String
  opts : Opts
  zip : List ZipEntry

/-- Constructor `EpubWriter.__init__`: derive the output path from the book
title, open a fresh archive, and immediately write the `mimetype` entry
with the container media type, stored uncompressed. -/
def initWriter (b : Book) (o : Opts) : Writer :=
  { book := b, path := b.title ++ ".epub", opts := o,
    zip := writestr [] "mimetype" "application/epub+zip" .stored }

/-- One emitted `itemref` element of the spine: its `idref` and whether it
carries an explicit `linear="no"` attribute. -/
structure ItemRef where
  idref : String
  linearNo : Bool
deriving DecidableEq, Repr

/-- Loop body data of `_write_opf_spine`: split an entry into its value and
the `is_linear` flag (`False` exactly for a tuple whose second component
is `'no'`). -/
def spineEntryParts : SpineEntry → SpineVal × Bool
  | .plain v => (v, true)
  | .tup v snd => (v, !(snd == some "no"))

/-- Method `_write_opf_spine`, the emitted `itemref` list: item objects
always emit, with `linear="no"` when the item or the override is
non-linear; a bare id that does not resolve is skipped, and a bare id that
resolves to a linear item (with a linear override) hits `continue` and is
also skipped, so only non-linear resolved ids emit (with `linear="no"`). -/
def write_opf_spine (b : Book) : List ItemRef :=
  b.spine.foldl
    (fun acc e =>
      let (v, is_linear) := spineEntryParts e
      match v with
      | .itm i =>
        acc ++ [{ idref := i.uid, linearNo := !i.is_linear || !is_linear }]
      | .sid s =>
        match get_item_with_id b s with
        | none => acc
        | some itm =>
          if itm.is_linear && is_linear then acc
          else acc ++ [{ idref := s, linearNo := true }])
    []

-- # io.py: the navigation document builder

/-- Content of one `li` of the rendered TOC: an anchor with href, or a bare
span (emitted when the section heading has no resolvable target). -/
inductive NavA where
  | anch (href text : String)
  | sp (text : String)
deriving Repr

/-- One `li` of the rendered TOC `ol` tree; `sub` is the nested `ol` that
`_create_section` always creates under a `(heading, children)` pair (and
never under a leaf). -/
inductive NavLi where
  | mk (lab : NavA) (sub : Option (List NavLi))
deriving Repr

/-- Recursive helper `_create_section` of `_get_nav`: render the TOC list as
nested ordered lists; document and link leaves become anchors with hrefs
relativised against the navigation document's directory; a raw string
matches no branch and renders nothing. -/
def renderTocList (navDir : String) : List TocNode → List NavLi
  | [] => []
  | n :: rest =>
    (match n with
     | .sect h cs =>
       let sub := some (renderTocList navDir cs)
       (match h with
        | .doc it => [NavLi.mk (.anch (relpath it.file_name navDir) it.title) sub]
        | .sec t href =>
          if href ≠ "" then [NavLi.mk (.anch (relpath href navDir) t) sub]
          else [NavLi.mk (.sp t) sub]
        | .link href t _ => [NavLi.mk (.anch (relpath href navDir) t) sub]
        | .other t => [NavLi.mk (.sp t) sub])
     | .link href t _ => [NavLi.mk (.anch (relpath href navDir) t) none]
     | .doc it => [NavLi.mk (.anch (relpath it.file_name navDir) it.title) none]
     | .strg _ => []) ++ renderTocList navDir rest

/-- The rendered navigation document: heading data, the TOC list, and the
optional landmarks and page-list blocks. -/
structure NavDoc where
  lang : String
  headTitle : String
  cssLinks : List String
  bodyDir : Option String
  tocHeading : String
  toc : List NavLi
  landmarks : Option (String × List (String × String × String))
  pagelist : Option (String × List (String × String))
deriving Repr

/-- Result of `_get_nav`: the empty byte string `b''` or a rendered
document. -/
inductive NavRes where
  | empty
  | doc (d : NavDoc)
deriving Repr

/-- The guide-to-landmark remapping of `_get_nav`:
`{'notes': 'rearnotes', 'text': 'bodymatter'}`, identity elsewhere. -/
def guideToLandmark (t : String) : String :=
  if t = "notes" then "rearnotes" else if t = "text" then "bodymatter" else t

/-- One landmark entry: resolved epub type, relativised href, and title,
taken from the referenced item when present and from the literal fields
otherwise. -/
def landmarkEntry (navDir : String) (e : GuideEntry) : String × String × String :=
  let hrefTitle : String × String :=
    match e.gitem with
    | some ch => (ch.file_name, ch.title)
    | none => (e.href, e.gtitle)
  (guideToLandmark e.gtype, relpath hrefTitle.1 navDir, hrefTitle.2)

/-- Tuple unpacking `for filename, pageref, label in inserted_pages` over
the flat string list `get_pages_for_items` returns: a string unpacks into
three one-character strings when its length is exactly 3, and raises
`ValueError` otherwise. -/
def unpack3 : List String → Except String (List (String × String × String))
  | [] => .ok []
  | s :: rest =>
    match s.data with
    | [a, b, c] =>
      (unpack3 rest).map (fun l => (String.mk [a], String.mk [b], String.mk [c]) :: l)
    | _ => .error "ValueError"

/-- Method `EpubWriter._get_nav(item)`: build the document skeleton and the
TOC list; if the guide is empty (or the landmark option is `None`) return
`b''`, discarding everything built so far; otherwise add the landmarks
block and, when the page option is on and the flattened page list is
non-empty, the page-list block, whose entry construction raises
`ValueError` whenever a flattened component string does not have length
3. -/
def get_nav (o : Opts) (b : Book) (item : Item) : Except String NavRes :=
  let navDir := dirname item.file_name
  let headTitle := if item.title = "" then b.title else item.title
  let cssLinks := item.links.map (fun l => (dGetF l "href").getD "")
  let tocR := renderTocList navDir b.toc
  if b.guide.length = 0 ∨ o.epub3_landmark = none then .ok .empty
  else
    let lm := some (o.landmark_title, b.guide.map (landmarkEntry navDir))
    let base : NavDoc :=
      { lang := b.language, headTitle := headTitle, cssLinks := cssLinks,
        bodyDir := item.direction, tocHeading := headTitle, toc := tocR,
        landmarks := lm, pagelist := none }
    if o.epub3_pages then
      let inserted := get_pages_for_items
        (b.items.filter (fun it => isHtmlCls it.cls && !(it.cls == ItemClass.nav)))
      if inserted.length > 0 then
        match unpack3 inserted with
        | .error e => .error e
        | .ok triples =>
          .ok (.doc { base with pagelist := some (o.pages_title,
            triples.map (fun p => (relpath (p.1 ++ "#" ++ p.2.1) navDir, p.2.2))) })
      else .ok (.doc base)
    else .ok (.doc base)

-- # split.py

/-- Whether the multiline pattern `^#{1,6}\s` matches at position `p`: a
line start followed by one to six hash characters and a whitespace
character. -/
def titleMatchAt (cs : List Char) (p : Nat) : Bool :=
  (decide (p = 0) || (decide (0 < p) && (cs.getD (p - 1) ' ' == '\n'))) &&
  (List.range 6).any (fun k0 =>
    let k := k0 + 1
    ((List.range k).all (fun j => cs.getD (p + j) ' ' == '#')) &&
    decide (p + k < cs.length) && isPySpace (cs.getD (p + k) ' '))

/-- Start positions of all matches of `PATTERN_TITLE.finditer`, in order.
(Matches cannot overlap: a later line start cannot fall inside an earlier
match's hash run, so the set of match positions equals the set of all
positions where the pattern matches.) -/
def titlePositions (cs : List Char) : List Nat :=
  (List.range cs.length).filter (titleMatchAt cs)

/-- Slicing loop of `_split_chapters`: given the first match position and
the remaining ones, yield the text between consecutive positions and the
final tail. -/
def chunksFrom (cs : List Char) : Nat → List Nat → List String
  | p0, [] => [String.mk (cs.drop p0)]
  | p0, p1 :: rest => String.mk ((cs.drop p0).take (p1 - p0)) :: chunksFrom cs p1 rest

/-- Function `_split_chapters(text)`: `pos0` is initialised to the start of
the *first* match (`next(its).start()`), then each further match closes a
chunk; no chunk before the first heading is ever produced. With no match
at all, the bare `next` raises, modelled as `none`. -/
def split_chapters (text : String) : Option (List String) :=
  let cs := text.data
  match titlePositions cs with
  | [] => none
  | p0 :: rest => some (chunksFrom cs p0 rest)

-- # Specification-side helpers for the uid-assignment claim

/-- The id string prefix of an item's uid-allocation category:
content documents, images, everything else. -/
def catPfxOf (c : ItemClass) : String :=
  if isHtmlCls c then "chapter_" else if isImageCls c then "image_" else "static_"

/-- Whether two classes fall in the same uid-allocation category. -/
def sameCat (a b : ItemClass) : Bool :=
  (isHtmlCls a == isHtmlCls b) && (isImageCls a == isImageCls b)

/-- The counter that an item of the given class draws from. -/
def catBase (h i s : Nat) (c : ItemClass) : Nat :=
  if isHtmlCls c then h else if isImageCls c then i else s

/-- Whether a link attribute dict carries `type='text/javascript'` — the
condition `add_link` tests before touching `properties`. -/
def isJsLink (kw : List (String × String)) : Bool :=
  dGetF kw "type" == some "text/javascript"

/-- The items as stored by repeatedly calling `add_item` starting from
counter values `h`, `i`, `s`: the recursion mirrors `add_item`'s uid
branch, threading the three counters. -/
def assignAll (g : String → Option String × Option String) (h i s : Nat) :
    List Item → List Item
  | [] => []
  | it0 :: rest =>
    let it := fixMedia g it0
    if it.uid = "" then
      if isHtmlCls it.cls then
        { it with uid := "chapter_" ++ toString h } :: assignAll g (h + 1) i s rest
      else if isImageCls it.cls then
        { it with uid := "image_" ++ toString i } :: assignAll g h (i + 1) s rest
      else
        { it with uid := "static_" ++ toString s } :: assignAll g h i (s + 1) rest
    else it :: assignAll g h i s rest

-- # Shared concrete inputs for witnesses and counterexamples

/-- A trivial stand-in for `mimetypes.guess_type`: nothing is guessed. -/
def noGuess : String → Option String × Option String := fun _ => (none, none)

/-- A parsed chapter body holding one page-break marker
`span epub:type="pagebreak" id="p1"` with text `1`. -/
def pbElem : Elem :=
  Elem.mk "html" [] none none
    [Elem.mk "span" [("epub:type", "pagebreak"), ("id", "p1")] (some "1") none []]

/-- A content document whose parsed body contains the page marker above. -/
def chItem : Item :=
  { mkItem ItemClass.html with uid := "ch", file_name := "ch.xhtml", bodyRoot := pbElem }

/-- The default navigation document item, `EpubNav()`. -/
def navItem : Item :=
  { mkItem ItemClass.nav with
    uid := "nav",
    file_name := "nav.xhtml",
    media_type := "application/xhtml+xml" }

/-- A book with one guide entry and one content document carrying a derived
page marker: the smallest input that drives `_get_nav` into its page-list
block. -/
def bookC6 : Book :=
  { initBook with
    guide := [{ gitem := none, href := "intro.xhtml", gtitle := "Intro", gtype := "text" }],
    items := [chItem, navItem] }

/-- A book holding one linear item with uid `a` that its spine references
by bare id. -/
def bookC2 : Book :=
  { initBook with
    items := [{ mkItem ItemClass.generic with uid := "a", file_name := "a.xhtml" }],
    spine := [SpineEntry.plain (SpineVal.sid "a")] }

-- # Helper lemmas

/-- Fixing the media type never changes the uid. -/
theorem fixMedia_uid (g : String → Option String × Option String) (it : Item) :
    (fixMedia g it).uid = it.uid := rfl

/-- Fixing the media type never changes the class. -/
theorem fixMedia_cls (g : String → Option String × Option String) (it : Item) :
    (fixMedia g it).cls = it.cls := rfl

/-- Fixing the media type never changes the stored page markers. -/
theorem fixMedia_pages (g : String → Option String × Option String) (it : Item) :
    (fixMedia g it).pages = it.pages := rfl

/-- Every later `writestr` only appends, so the head entry of a non-empty
archive is stable under any sequence of writes. -/
theorem foldl_writestr_head (ws : List (String × String × Compression)) :
    ∀ (a : ZipEntry) (l : List ZipEntry),
      (ws.foldl (fun acc w => writestr acc w.1 w.2.1 w.2.2) (a :: l)).head? = some a := by
  induction ws with
  | nil => intro a l; rfl
  | cons w ws ih =>
    intro a l
    rw [List.foldl_cons]
    exact ih a (l ++ [{ name := w.1, content := w.2.1, comp := w.2.2 }])

-- # Claim theorems

/-- C1: for every book and writer options, the writer constructor leaves the
archive holding exactly the entry named `mimetype` with content
`application/epub+zip`, stored uncompressed — and after any further
sequence of entry writes that entry is still physically first. -/
theorem mimetype_first_entry (b : Book) (o : Opts)
    (ws : List (String × String × Compression)) :
    (initWriter b o).zip =
      [{ name := "mimetype", content := "application/epub+zip",
         comp := Compression.stored }] ∧
    (ws.foldl (fun acc w => writestr acc w.1 w.2.1 w.2.2) (initWriter b o).zip).head? =
      some { name := "mimetype", content := "application/epub+zip",
             comp := Compression.stored } :=
  ⟨rfl, foldl_writestr_head ws _ []⟩

/-- C2: in `_write_opf_spine`, a bare spine id that resolves to a *linear*
item hits `continue` before the `itemref` element is created: the book
below resolves `"a"` to a linear item, yet the emitted spine is empty,
where the claim requires an itemref with idref `"a"` and no linear
attribute. -/
theorem spine_bare_id_linear_skipped :
    get_item_with_id bookC2 "a" =
      some { mkItem ItemClass.generic with uid := "a", file_name := "a.xhtml" } ∧
    write_opf_spine bookC2 = [] :=
  ⟨rfl, rfl⟩

/-- C3: `_get_nav` returns the empty byte string for every book whose guide
list is empty (the early `return b''` fires before the document is
serialised), so such a book does not get a navigation document containing
the rendered TOC, contrary to the claim. -/
theorem nav_empty_guide_returns_empty (o : Opts) (b : Book) (it : Item)
    (h : b.guide = []) : get_nav o b it = .ok .empty := by
  simp [get_nav, h]

/-- Witness for C3: the default writer options and a book with a non-empty
TOC but an empty guide produce the empty navigation document. -/
theorem nav_empty_guide_returns_empty_witness :
    get_nav defaultOpts { initBook with toc := [TocNode.doc chItem] } navItem =
      .ok .empty :=
  nav_empty_guide_returns_empty defaultOpts
    { initBook with toc := [TocNode.doc chItem] } navItem rfl

/-- C6: the content document `chItem` derives exactly one page-marker
triple, but `get_pages_for_items` flattens it into three loose strings,
and `_get_nav`'s page-list loop, which unpacks each element as a
`(filename, id, label)` triple, then raises `ValueError` — instead of
emitting one entry with href `ch.xhtml#p1` as the claim requires. -/
theorem nav_pagelist_flatten_valueerror :
    get_pages chItem = [("ch.xhtml", "p1", "1")] ∧
    get_pages_for_items [chItem] = ["ch.xhtml", "p1", "1"] ∧
    get_nav defaultOpts bookC6 navItem = .error "ValueError" :=
  ⟨by decide, by decide, by rfl⟩

/-- C8 (amended): `get_metadata` returns the stored ordered list — empty
when the name is absent — for a namespace that has an entry in the
registry, and raises `KeyError` when the namespace has none. -/
theorem get_metadata_registered_or_keyerror (b : Book) (ns : Option String)
    (name : String) :
    (∀ inner, mGet b.metadata (resolveNs ns) = some inner →
      get_metadata b ns name = .ok ((dGetF inner name).getD [])) ∧
    (mGet b.metadata (resolveNs ns) = none →
      get_metadata b ns name = .error "KeyError") := by
  constructor
  · intro inner h
    unfold get_metadata
    rw [h]
  · intro h
    unfold get_metadata
    rw [h]

/-- Witness for C8 (amended): the constructor registers the OPF namespace,
so asking it for an absent name yields the empty list without an error. -/
theorem get_metadata_registered_or_keyerror_witness :
    get_metadata initBook (some "OPF") "title" = .ok [] :=
  (get_metadata_registered_or_keyerror initBook (some "OPF") "title").1
    [("generator", [("", some [("name", "generator"), ("content", "md2epub.epublib")])])]
    rfl

/-- Counterexample for C8: on a freshly constructed book only the OPF
namespace is registered, so `get_metadata('DC', 'title')` raises
`KeyError` instead of returning the empty list. -/
theorem get_metadata_unregistered_namespace_raises :
    get_metadata initBook (some "DC") "title" = .error "KeyError" := rfl

/-- C9: `_split_chapters` seeds `pos0` with the start of the *first* match,
so the example input produces only the two heading-led chunks and not the
leading empty chunk that the specification example (and the repository's
own test) expects. -/
theorem split_chapters_no_leading_empty_chunk :
    split_chapters "# a\nabc\n## b\nBCD\n" = some ["# a\nabc\n", "## b\nBCD\n"] ∧
    split_chapters "# a\nabc\n## b\nBCD\n" ≠
      some ["", "# a\nabc\n", "## b\nBCD\n"] :=
  ⟨rfl, by decide⟩

-- # Helper lemmas for the uid-assignment claim

/-- Classes in the content-document category share a category only with
classes whose `isHtmlCls` flag matches. -/
theorem sameCat_of_html : ∀ a b : ItemClass, isHtmlCls a = true → sameCat a b = isHtmlCls b := by
  intro a b; cases a <;> cases b <;> decide

/-- Classes in the image category share a category only with classes whose
`isImageCls` flag matches. -/
theorem sameCat_of_image : ∀ a b : ItemClass, isImageCls a = true → sameCat a b = isImageCls b := by
  intro a b; cases a <;> cases b <;> decide

/-- Classes in the static category share a category exactly with the other
static classes. -/
theorem sameCat_of_static : ∀ a b : ItemClass, isHtmlCls a = false → isImageCls a = false →
    sameCat a b = (!isHtmlCls b && !isImageCls b) := by
  intro a b; cases a <;> cases b <;> decide

/-- Unfolding `assignAll` on a cons cell. -/
theorem assignAll_cons (g : String → Option String × Option String)
    (it0 : Item) (rest : List Item) (h i s : Nat) :
    assignAll g h i s (it0 :: rest) =
      if it0.uid = "" then
        if isHtmlCls it0.cls then
          { fixMedia g it0 with uid := "chapter_" ++ toString h } :: assignAll g (h + 1) i s rest
        else if isImageCls it0.cls then
          { fixMedia g it0 with uid := "image_" ++ toString i } :: assignAll g h (i + 1) s rest
        else
          { fixMedia g it0 with uid := "static_" ++ toString s } :: assignAll g h i (s + 1) rest
      else fixMedia g it0 :: assignAll g h i s rest := rfl

/-- Assigning uids preserves the number of items. -/
theorem assignAll_length (g : String → Option String × Option String) :
    ∀ (its : List Item) (h i s : Nat), (assignAll g h i s its).length = its.length := by
  intro its
  induction its with
  | nil => intro h i s; rfl
  | cons it0 rest ih =>
    intro h i s
    rw [assignAll_cons]
    split
    · split
      · simp [ih]
      · split <;> simp [ih]
    · simp [ih]

/-- Unfolding `add_item` into its four branches. -/
theorem add_item_cons (g : String → Option String × Option String) (b : Book) (it0 : Item) :
    add_item g b it0 =
      if it0.uid = "" then
        if isHtmlCls it0.cls then
          { b with id_html := b.id_html + 1, pages := b.pages ++ it0.pages,
                   items := b.items ++
                     [{ fixMedia g it0 with uid := "chapter_" ++ toString b.id_html }] }
        else if isImageCls it0.cls then
          { b with id_image := b.id_image + 1,
                   items := b.items ++
                     [{ fixMedia g it0 with uid := "image_" ++ toString b.id_image }] }
        else
          { b with id_static := b.id_static + 1,
                   items := b.items ++
                     [{ fixMedia g it0 with uid := "static_" ++ toString b.id_static }] }
      else { b with items := b.items ++ [fixMedia g it0] } := rfl

/-- Folding `add_item` over a list appends exactly the items produced by
`assignAll` started at the book's current counters. -/
theorem foldl_add_item_items (g : String → Option String × Option String) :
    ∀ (its : List Item) (b : Book),
      (its.foldl (add_item g) b).items =
        b.items ++ assignAll g b.id_html b.id_image b.id_static its := by
  intro its
  induction its with
  | nil => intro b; simp [assignAll]
  | cons it0 rest ih =>
    intro b
    rw [List.foldl_cons, ih, add_item_cons, assignAll_cons]
    split
    · split
      · simp
      · split <;> simp
    · simp

/-- Bumping the content-document counter shifts `catBase` exactly for
content-document classes. -/
theorem catBase_step_html (h i s n : Nat) (c : ItemClass) :
    catBase (h + 1) i s c + n = catBase h i s c + (n + if isHtmlCls c then 1 else 0) := by
  by_cases hc : isHtmlCls c = true
  · simp [catBase, hc]; omega
  · simp [catBase, hc]

/-- Bumping the image counter shifts `catBase` exactly for image classes. -/
theorem catBase_step_image (h i s n : Nat) (c : ItemClass) :
    catBase h (i + 1) s c + n = catBase h i s c + (n + if isImageCls c then 1 else 0) := by
  by_cases hc : isHtmlCls c = true
  · have hic : isImageCls c = false := by revert hc; cases c <;> decide
    simp [catBase, hc, hic]
  · by_cases hic : isImageCls c = true
    · simp [catBase, hc, hic]; omega
    · simp [catBase, hc, hic]

/-- Bumping the static counter shifts `catBase` exactly for static classes. -/
theorem catBase_step_static (h i s n : Nat) (c : ItemClass) :
    catBase h i (s + 1) c + n =
      catBase h i s c + (n + if (!isHtmlCls c && !isImageCls c) then 1 else 0) := by
  by_cases hc : isHtmlCls c = true
  · simp [catBase, hc]
  · by_cases hic : isImageCls c = true
    · simp [catBase, hc, hic]
    · simp [catBase, hc, hic]; omega

/-- The uid stored at position `j` by `assignAll`: the original uid when it
was non-empty, and otherwise the category's base counter plus the number
of earlier auto-assigned items in the same category. -/
theorem assignAll_uid (g : String → Option String × Option String) :
    ∀ (its : List Item) (h i s j : Nat), j < its.length →
      ((assignAll g h i s its).getD j (mkItem .generic)).uid =
        if (its.getD j (mkItem .generic)).uid = "" then
          catPfxOf (its.getD j (mkItem .generic)).cls ++
            toString (catBase h i s (its.getD j (mkItem .generic)).cls +
              (its.take j).countP
                (fun x => (x.uid == "") && sameCat x.cls (its.getD j (mkItem .generic)).cls))
        else (its.getD j (mkItem .generic)).uid := by
  intro its
  induction its with
  | nil =>
    intro h i s j hj
    simp at hj
  | cons it0 rest ih =>
    intro h i s j hj
    rw [assignAll_cons]
    by_cases hu : it0.uid = ""
    · rw [if_pos hu]
      by_cases hh : isHtmlCls it0.cls = true
      · rw [if_pos hh]
        cases j with
        | zero => simp [catPfxOf, catBase, hu, hh]
        | succ j =>
          have hj' : j < rest.length := by simpa using hj
          rw [List.getD_cons_succ, List.getD_cons_succ, List.take_succ_cons,
              List.countP_cons, ih (h + 1) i s j hj']
          by_cases htu : (rest.getD j (mkItem ItemClass.generic)).uid = ""
          · rw [if_pos htu, if_pos htu]
            have hs := sameCat_of_html it0.cls (rest.getD j (mkItem ItemClass.generic)).cls hh
            simp only [hu, hs, beq_self_eq_true, Bool.true_and]
            rw [catBase_step_html]
          · rw [if_neg htu, if_neg htu]
      · rw [if_neg hh]
        have hhf : isHtmlCls it0.cls = false := by simpa using hh
        by_cases him : isImageCls it0.cls = true
        · rw [if_pos him]
          cases j with
          | zero => simp [catPfxOf, catBase, hu, hhf, him]
          | succ j =>
            have hj' : j < rest.length := by simpa using hj
            rw [List.getD_cons_succ, List.getD_cons_succ, List.take_succ_cons,
                List.countP_cons, ih h (i + 1) s j hj']
            by_cases htu : (rest.getD j (mkItem ItemClass.generic)).uid = ""
            · rw [if_pos htu, if_pos htu]
              have hs := sameCat_of_image it0.cls (rest.getD j (mkItem ItemClass.generic)).cls him
              simp only [hu, hs, beq_self_eq_true, Bool.true_and]
              rw [catBase_step_image]
            · rw [if_neg htu, if_neg htu]
        · rw [if_neg him]
          have himf : isImageCls it0.cls = false := by simpa using him
          cases j with
          | zero => simp [catPfxOf, catBase, hu, hhf, himf]
          | succ j =>
            have hj' : j < rest.length := by simpa using hj
            rw [List.getD_cons_succ, List.getD_cons_succ, List.take_succ_cons,
                List.countP_cons, ih h i (s + 1) j hj']
            by_cases htu : (rest.getD j (mkItem ItemClass.generic)).uid = ""
            · rw [if_pos htu, if_pos htu]
              have hs := sameCat_of_static it0.cls (rest.getD j (mkItem ItemClass.generic)).cls
                hhf himf
              simp only [hu, hs, beq_self_eq_true, Bool.true_and]
              rw [catBase_step_static]
            · rw [if_neg htu, if_neg htu]
    · rw [if_neg hu]
      cases j with
      | zero =>
        rw [List.getD_cons_zero, List.getD_cons_zero, if_neg hu]
        exact fixMedia_uid g it0
      | succ j =>
        have hj' : j < rest.length := by simpa using hj
        have hbu : (it0.uid == "") = false := by simpa using hu
        rw [List.getD_cons_succ, List.getD_cons_succ, List.take_succ_cons,
            List.countP_cons, ih h i s j hj']
        simp [hbu]

/-- C5: starting from a fresh aggregate, the stored item at position `j` —
one per insertion, in insertion order — keeps its uid when one was given,
and otherwise receives its category's sequential id whose number counts
the earlier insertions without explicit ids in the same category
(`chapter_0, chapter_1, …`; `image_0, …`; `static_0, …`); explicit-id
insertions advance no counter. -/
theorem uid_assignment_sequential (g : String → Option String × Option String)
    (its : List Item) (j : Nat) (hj : j < its.length) :
    ((its.foldl (add_item g) initBook).items.length = its.length) ∧
    (((its.foldl (add_item g) initBook).items.getD j (mkItem ItemClass.generic)).uid =
      if (its.getD j (mkItem ItemClass.generic)).uid = "" then
        catPfxOf (its.getD j (mkItem ItemClass.generic)).cls ++
          toString ((its.take j).countP
            (fun x => (x.uid == "") &&
              sameCat x.cls (its.getD j (mkItem ItemClass.generic)).cls))
      else (its.getD j (mkItem ItemClass.generic)).uid) := by
  have hfold := foldl_add_item_items g its initBook
  have h0 : initBook.items = [] := rfl
  have h1 : initBook.id_html = 0 := rfl
  have h2 : initBook.id_image = 0 := rfl
  have h3 : initBook.id_static = 0 := rfl
  rw [hfold, h0, h1, h2, h3, List.nil_append]
  constructor
  · exact assignAll_length g its 0 0 0
  · have hmain := assignAll_uid g its 0 0 0 j hj
    have hz : ∀ c, catBase 0 0 0 c = 0 := by intro c; cases c <;> rfl
    simpa [hz] using hmain

/-- Witness for C5: of five insertions — three content documents and one
image without ids, one generic item with an explicit id — the fifth
receives `chapter_2`. -/
theorem uid_assignment_sequential_witness :
    (([mkItem ItemClass.html, mkItem ItemClass.image, mkItem ItemClass.html,
       { mkItem ItemClass.generic with uid := "x" }, mkItem ItemClass.html].foldl
        (add_item noGuess) initBook).items.getD 4 (mkItem ItemClass.generic)).uid =
      "chapter_2" :=
  ((uid_assignment_sequential noGuess
      [mkItem ItemClass.html, mkItem ItemClass.image, mkItem ItemClass.html,
       { mkItem ItemClass.generic with uid := "x" }, mkItem ItemClass.html]
      4 (by decide)).2).trans (by decide)

-- # The page-list side effect of insertion (C7)

/-- C7 (amended): inserting a content document *without* an explicit id
appends its derived page markers to the aggregate's page list; inserting
one *with* an explicit id leaves the page list unchanged. -/
theorem add_item_pages_only_when_autoid
    (g : String → Option String × Option String) (b : Book) (it : Item)
    (hc : isHtmlCls it.cls = true) :
    (it.uid = "" → (add_item g b it).pages = b.pages ++ it.pages) ∧
    (it.uid ≠ "" → (add_item g b it).pages = b.pages) := by
  constructor
  · intro h
    simp [add_item, fixMedia_uid, fixMedia_cls, fixMedia_pages, h, hc]
  · intro h
    simp [add_item, fixMedia_uid, h]

/-- Witness for C7 (amended): a content document with a page marker and no
id contributes its marker; the same document with an explicit id does
not. -/
theorem add_item_pages_only_when_autoid_witness :
    (add_item noGuess initBook
      { mkItem ItemClass.html with pages := [("f", "p", "1")] }).pages =
        initBook.pages ++ [("f", "p", "1")] ∧
    (add_item noGuess initBook
      { mkItem ItemClass.html with uid := "x", pages := [("f", "p", "1")] }).pages =
        initBook.pages :=
  ⟨(add_item_pages_only_when_autoid noGuess initBook
      { mkItem ItemClass.html with pages := [("f", "p", "1")] } rfl).1 rfl,
   (add_item_pages_only_when_autoid noGuess initBook
      { mkItem ItemClass.html with uid := "x", pages := [("f", "p", "1")] } rfl).2
      (by decide)⟩

/-- Counterexample for C7: a content document inserted with an explicit id
carries a page marker, yet the aggregate's page list stays empty — the
side effect is not unconditional. -/
theorem add_item_explicit_id_pages_dropped :
    ({ mkItem ItemClass.html with uid := "x", pages := [("f", "p", "1")] } : Item).pages ≠ [] ∧
    (add_item noGuess initBook
      { mkItem ItemClass.html with uid := "x", pages := [("f", "p", "1")] }).pages = [] :=
  ⟨by decide, by rfl⟩

-- # The extension table (C4)

/-- Counterexample for C4: `.css` resolves to the unknown category (not
stylesheet) because the `('.css')` row of `_EXTENSIONS` is a plain string
whose characters become the dict keys, and `.jpg` resolves to the cover
category (not image) because the cover row overwrites the image row. -/
theorem extension_type_counterexample :
    itemType { mkItem ItemClass.generic with file_name := "style.css" } = ItemType.UNKNOWN ∧
    itemType { mkItem ItemClass.generic with file_name := "a.jpg" } = ItemType.COVER ∧
    ItemType.UNKNOWN ≠ ItemType.STYLE ∧ ItemType.COVER ≠ ItemType.IMAGE :=
  ⟨by decide, by decide, by decide, by decide⟩

/-- C4 (amended): extension-based type inference follows the table as the
comprehension actually builds it — `.gif/.tiff/.tif` image;
`.jpg/.jpeg/.png` cover (the cover row wins); `.otf/.woff/.ttf` font;
`.mov/.mp4/.avi` video; `.mp3/.ogg` audio; the single-extension rows are
iterated character-wise so `.css/.svg/.js/.ncx/.smil` (and every other
extension missing from the table) resolve to unknown. -/
theorem extension_type_amended :
    (∀ it : Item, (it.cls = ItemClass.generic ∨ it.cls = ItemClass.ncx) →
      dGetLast EXTENSIONS (pyLower (extOf it.file_name)) = none →
      itemType it = ItemType.UNKNOWN) ∧
    itemType { mkItem ItemClass.generic with file_name := "a.gif" } = ItemType.IMAGE ∧
    itemType { mkItem ItemClass.generic with file_name := "a.tiff" } = ItemType.IMAGE ∧
    itemType { mkItem ItemClass.generic with file_name := "a.tif" } = ItemType.IMAGE ∧
    itemType { mkItem ItemClass.generic with file_name := "a.jpg" } = ItemType.COVER ∧
    itemType { mkItem ItemClass.generic with file_name := "a.jpeg" } = ItemType.COVER ∧
    itemType { mkItem ItemClass.generic with file_name := "a.png" } = ItemType.COVER ∧
    itemType { mkItem ItemClass.generic with file_name := "a.otf" } = ItemType.FONT ∧
    itemType { mkItem ItemClass.generic with file_name := "a.woff" } = ItemType.FONT ∧
    itemType { mkItem ItemClass.generic with file_name := "a.ttf" } = ItemType.FONT ∧
    itemType { mkItem ItemClass.generic with file_name := "a.mov" } = ItemType.VIDEO ∧
    itemType { mkItem ItemClass.generic with file_name := "a.mp4" } = ItemType.VIDEO ∧
    itemType { mkItem ItemClass.generic with file_name := "a.avi" } = ItemType.VIDEO ∧
    itemType { mkItem ItemClass.generic with file_name := "a.mp3" } = ItemType.Audio ∧
    itemType { mkItem ItemClass.generic with file_name := "a.ogg" } = ItemType.Audio ∧
    itemType { mkItem ItemClass.generic with file_name := "a.css" } = ItemType.UNKNOWN ∧
    itemType { mkItem ItemClass.generic with file_name := "a.svg" } = ItemType.UNKNOWN ∧
    itemType { mkItem ItemClass.generic with file_name := "a.js" } = ItemType.UNKNOWN ∧
    itemType { mkItem ItemClass.generic with file_name := "a.ncx" } = ItemType.UNKNOWN ∧
    itemType { mkItem ItemClass.generic with file_name := "a.smil" } = ItemType.UNKNOWN := by
  constructor
  · intro it h hnone
    rcases h with h | h <;> simp [itemType, h, hnone]
  · refine ⟨?_, ?_, ?_, ?_, ?_, ?_, ?_, ?_, ?_, ?_, ?_, ?_, ?_, ?_, ?_, ?_, ?_, ?_, ?_⟩ <;>
      decide

/-- Witness for C4 (amended): an extension outside the table resolves to
the unknown category. -/
theorem extension_type_amended_witness :
    itemType { mkItem ItemClass.generic with file_name := "a.xyz" } = ItemType.UNKNOWN :=
  extension_type_amended.1 { mkItem ItemClass.generic with file_name := "a.xyz" }
    (Or.inl rfl) (by decide)

-- # Script links and the scripted property (C10)

/-- Adding a link always appends it to the link list, whatever its type. -/
theorem add_link_links (d : Item) (kw : List (String × String)) :
    (add_link d kw).links = d.links ++ [kw] := by
  by_cases hjs : (dGetF kw "type" == some "text/javascript") = true
  · by_cases hm : "scripted" ∈ d.properties
    · simp [add_link, hjs, hm]
    · simp [add_link, hjs, hm]
  · have hjs' : (dGetF kw "type" == some "text/javascript") = false := by simpa using hjs
    simp [add_link, hjs']

/-- Adding a link appends `'scripted'` to the properties exactly when the
link is a script link and the marker is not yet present. -/
theorem add_link_properties (d : Item) (kw : List (String × String)) :
    (add_link d kw).properties =
      if isJsLink kw && !(d.properties.contains "scripted") then
        d.properties ++ ["scripted"]
      else d.properties := by
  by_cases hjs : (dGetF kw "type" == some "text/javascript") = true
  · by_cases hm : "scripted" ∈ d.properties
    · simp [add_link, isJsLink, hjs, hm]
    · simp [add_link, isJsLink, hjs, hm]
  · have hjs' : (dGetF kw "type" == some "text/javascript") = false := by simpa using hjs
    simp [add_link, isJsLink, hjs']

/-- Folding `add_link` appends the added dicts to the link list in order. -/
theorem foldl_add_link_links (kws : List (List (String × String))) :
    ∀ d : Item, (kws.foldl add_link d).links = d.links ++ kws := by
  induction kws with
  | nil => intro d; simp
  | cons kw kws ih =>
    intro d
    rw [List.foldl_cons, ih, add_link_links]
    simp

/-- After any sequence of `add_link` calls, the `'scripted'` marker is
present iff it was present before or some added link is a script link,
and its multiplicity grows by at most one. -/
theorem foldl_add_link_scripted (kws : List (List (String × String))) :
    ∀ d : Item,
      ((kws.foldl add_link d).properties.contains "scripted" =
        (d.properties.contains "scripted" || kws.any isJsLink)) ∧
      ((kws.foldl add_link d).properties.count "scripted" =
        d.properties.count "scripted" +
          (if d.properties.contains "scripted" then 0
           else if kws.any isJsLink then 1 else 0)) := by
  induction kws with
  | nil => intro d; simp
  | cons kw kws ih =>
    intro d
    rw [List.foldl_cons]
    obtain ⟨ihc, ihn⟩ := ih (add_link d kw)
    rw [add_link_properties] at ihc ihn
    by_cases hm : "scripted" ∈ d.properties
    · have hcs : d.properties.contains "scripted" = true := by simpa using hm
      constructor
      · rw [ihc]; simp [hm, hcs]
      · rw [ihn]; simp [hm, hcs]
    · have hcs : d.properties.contains "scripted" = false := by simpa using hm
      by_cases hjs : isJsLink kw = true
      · constructor
        · rw [ihc]; simp [hm, hcs, hjs]
        · rw [ihn]; simp [hm, hcs, hjs]
      · have hjs' : isJsLink kw = false := by simpa using hjs
        constructor
        · rw [ihc]; simp [hm, hcs, hjs']
        · rw [ihn]; simp [hm, hcs, hjs']

/-- C10: on a fresh content document, any sequence of `add_link` calls
appends every link to the link list; the `'scripted'` property appears
exactly once when at least one added link has type `text/javascript` and
zero times otherwise (the effect on properties is idempotent); a link of
any other type never modifies the properties list. -/
theorem add_link_scripted_idempotent (kws : List (List (String × String))) :
    ((kws.foldl add_link (mkItem ItemClass.html)).links = kws) ∧
    ((kws.foldl add_link (mkItem ItemClass.html)).properties.count "scripted" =
      if kws.any isJsLink then 1 else 0) ∧
    (∀ (d : Item) (kw : List (String × String)), isJsLink kw = false →
      (add_link d kw).properties = d.properties) := by
  refine ⟨?_, ?_, ?_⟩
  · simpa using foldl_add_link_links kws (mkItem ItemClass.html)
  · have hm := (foldl_add_link_scripted kws (mkItem ItemClass.html)).2
    have hp : (mkItem ItemClass.html).properties = [] := rfl
    rw [hp] at hm
    simpa using hm
  · intro d kw hkw
    rw [add_link_properties]
    simp [hkw]

/-- Witness for C10: two script links and one stylesheet link leave exactly
one `'scripted'` marker, and a stylesheet link alone never touches the
properties. -/
theorem add_link_scripted_idempotent_witness :
    (([[("type", "text/javascript"), ("src", "a.js")], [("type", "text/javascript")],
       [("rel", "stylesheet"), ("href", "a.css")]].foldl add_link
        (mkItem ItemClass.html)).properties.count "scripted" = 1) ∧
    (add_link chItem [("rel", "stylesheet"), ("href", "a.css")]).properties =
      chItem.properties :=
  ⟨((add_link_scripted_idempotent
      [[("type", "text/javascript"), ("src", "a.js")], [("type", "text/javascript")],
       [("rel", "stylesheet"), ("href", "a.css")]]).2.1).trans (by decide),
   (add_link_scripted_idempotent []).2.2 chItem
     [("rel", "stylesheet"), ("href", "a.css")] (by decide)⟩

end Md2Epub
